import Mathlib

/-!
Verification of the CHAT-APP-UG server (src/server.js, src/models.js,
src/unnamed/part_000) against its natural-language specification.

The embedding models the MongoDB-backed document store as explicit lists of
records (creation order = `createdAt` order), and each socket handler as a
pure function from a store (plus the socket's in-memory attributes) to a new
store and the events it emits.  Mongo query operators are translated
faithfully: `$all` on an array field = all listed values are members,
`$ne v` on an array field = `v` is not a member, `$nin [v]` on an array
field = `v` is not a member, `$addToSet` = append when absent.  JavaScript
object ids are compared via `toString()`, so ids are modelled as strings;
JavaScript string falsiness (`undefined` and the empty string are falsy)
is modelled on `Option String`.  A thrown-and-caught exception inside a
handler is modelled as an `Option`-valued result: `none` means the handler
aborted without emitting its success event (its earlier store writes are
kept, as in the code, where `try/catch` does not roll back awaited writes).
-/

namespace ChatApp

abbrev UserId := String
abbrev ConvId := String
abbrev MsgId := String
abbrev SockId := String

/-- User record (src/models.js, userSchema). -/
structure User where
  id : UserId
  username : String
  password : String
  isOnline : Bool
  socketId : Option SockId
deriving Repr, DecidableEq

/-- Message record (src/models.js, messageSchema).  `type` is the string
enum "text" | "file"; `readBy` is the array of reader ids. -/
structure Message where
  id : MsgId
  conversationId : ConvId
  sender : UserId
  content : String
  type : String
  fileUrl : Option String
  readBy : List UserId
deriving Repr, DecidableEq

/-- Conversation record (src/models.js, conversationSchema). -/
structure Conversation where
  id : ConvId
  participants : List UserId
  lastMessage : String
deriving Repr, DecidableEq

/-- The persisted document store: the three Mongo collections, each kept in
creation order (so a find sorted by createdAt ascending is the list order). -/
structure Store where
  users : List User
  conversations : List Conversation
  messages : List Message
deriving Repr, DecidableEq

/-- JavaScript truthiness of an optional string: `undefined` and the empty
string are falsy. -/
def jsTruthy : Option String → Bool
  | none => false
  | some s => decide (s ≠ "")

/-- JavaScript `a || b` for an optional string `a` and string `b`:
returns `b` when `a` is `undefined` or the empty string. -/
def jsOr (a : Option String) (b : String) : String :=
  match a with
  | none => b
  | some s => if s = "" then b else s

/-! ## Unread Aggregator (src/server.js lines 40-78, sendUnreadCounts) -/

/-- The Mongo filter of `Message.countDocuments` in `sendUnreadCounts`:
`conversationId: convo._id`, `sender: { $ne: userObjectId }`,
`readBy: { $nin: [userObjectId] }`. -/
def unreadFilter (cid : ConvId) (u : UserId) (m : Message) : Bool :=
  decide (m.conversationId = cid ∧ m.sender ≠ u ∧ u ∉ m.readBy)

/-- `Message.countDocuments` with the unread filter. -/
def countUnread (msgs : List Message) (cid : ConvId) (u : UserId) : Nat :=
  (msgs.filter (unreadFilter cid u)).length

/-- One element of the `unreadUpdates` array pushed by `sendUnreadCounts`. -/
structure UnreadUpdate where
  conversationId : ConvId
  count : Nat
  targetUserId : UserId
deriving Repr, DecidableEq

/-- The loop body of `sendUnreadCounts` over the user's conversations.
For each conversation the unread count is taken; when it is positive the
other participant is looked up with `participants.find(pId => pId.toString()
!== userId)` — when that `find` returns `undefined` the subsequent
`.toString()` throws, aborting the whole helper (modelled as `none`). -/
def buildUnread (msgs : List Message) (u : UserId) :
    List Conversation → Option (List UnreadUpdate)
  | [] => some []
  | c :: cs =>
    if 0 < countUnread msgs c.id u then
      match c.participants.find? (fun p => decide (p ≠ u)) with
      | some t =>
        match buildUnread msgs u cs with
        | some rest => some (⟨c.id, countUnread msgs c.id u, t⟩ :: rest)
        | none => none
      | none => none
    else buildUnread msgs u cs

/-- `sendUnreadCounts(userId)`: `Conversation.find({ participants: userId })`
selects the conversations whose participant array contains the user, then
the loop builds the `unreadUpdates` array.  `none` models the handler
aborting on a thrown error (nothing is emitted). -/
def sendUnreadCounts (st : Store) (u : UserId) : Option (List UnreadUpdate) :=
  buildUnread st.messages u (st.conversations.filter (fun c => decide (u ∈ c.participants)))

/-- The unread summary as the spec words it (the refinement target for
claim C1): an entry appears exactly for each conversation of the user with
a nonzero unread count, where the count is the number of messages of the
conversation whose sender is not the user and whose read-set does not
contain the user, and `targetUserId` is the other participant. -/
def unreadSummarySpec (st : Store) (u : UserId) (l : List UnreadUpdate) : Prop :=
  ∀ e : UnreadUpdate, e ∈ l ↔ ∃ c : Conversation, c ∈ st.conversations ∧
    u ∈ c.participants ∧
    0 < (st.messages.filter (fun m =>
          decide (m.conversationId = c.id ∧ m.sender ≠ u ∧ u ∉ m.readBy))).length ∧
    e.conversationId = c.id ∧
    e.count = (st.messages.filter (fun m =>
          decide (m.conversationId = c.id ∧ m.sender ≠ u ∧ u ∉ m.readBy))).length ∧
    e.targetUserId ∈ c.participants ∧ e.targetUserId ≠ u

/-! ## Conversation Resolver (src/server.js lines 158-167, join_private_chat) -/

/-- `Conversation.findOne({ participants: { $all: [myId, targetUserId] } })`:
the first conversation whose participant array contains both ids. -/
def findConversation (convs : List Conversation) (a b : UserId) : Option Conversation :=
  convs.find? (fun c => decide (a ∈ c.participants ∧ b ∈ c.participants))

/-- The find-or-create step of `join_private_chat`: when no conversation
contains both ids, `Conversation.create({ participants: [myId, targetUserId],
lastMessage: 'Start a conversation' })` persists a new one (`newId` stands
for the server-assigned `_id`).  Returns the resolved conversation and the
store after the step. -/
def resolve (st : Store) (myId targetUserId : UserId) (newId : ConvId) :
    Conversation × Store :=
  match findConversation st.conversations myId targetUserId with
  | some c => (c, st)
  | none =>
    let c : Conversation := ⟨newId, [myId, targetUserId], "Start a conversation"⟩
    (c, { st with conversations := st.conversations ++ [c] })

/-- One entry of the `history` array built by `join_private_chat`. -/
structure HistoryEntry where
  id : MsgId
  senderId : UserId
  senderName : String
  content : String
  type : String
  fileUrl : Option String
  readBy : List UserId
deriving Repr, DecidableEq

/-- The history construction of `join_private_chat`:
`Message.find({ conversationId }).sort({ createdAt: 1 }).populate('sender',
'username')` followed by the `messages.map(...)`.  `populate` resolves each
message's sender to its user record; a missing sender user leaves `m.sender`
null and `m.sender._id` throws (modelled as `none` for the whole handler). -/
def buildHistory (users : List User) (msgs : List Message) (cid : ConvId) :
    Option (List HistoryEntry) :=
  (msgs.filter (fun m => decide (m.conversationId = cid))).mapM (fun m =>
    match users.find? (fun u => decide (u.id = m.sender)) with
    | some su => some ⟨m.id, m.sender, su.username, m.content, m.type, m.fileUrl, m.readBy⟩
    | none => none)

/-- The success reply of `join_private_chat`. -/
structure ChatRoomLoaded where
  roomId : ConvId
  history : List HistoryEntry
  targetUserIdOut : UserId
  targetUsername : String
deriving Repr, DecidableEq

/-- `join_private_chat({ targetUserId })` (src/server.js lines 149-198).
`sockUserId` is the socket's in-memory `socket.userId` (absent before
authentication, in which case the handler returns early).  After the
find-or-create step the handler builds the history, looks up the target
user with `User.findById(targetUserId)` and emits `chat_room_loaded`; if
the lookup returns null, `targetUser._id.toString()` throws and the catch
block swallows the error — no event is emitted but the store writes made so
far (the created conversation) are kept. -/
def join_private_chat (st : Store) (sockUserId : Option UserId)
    (targetUserId : UserId) (newId : ConvId) : Store × Option ChatRoomLoaded :=
  match sockUserId with
  | none => (st, none)
  | some myId =>
    let res := resolve st myId targetUserId newId
    let st1 := res.2
    match buildHistory st1.users st1.messages res.1.id with
    | none => (st1, none)
    | some hist =>
      match st1.users.find? (fun u => decide (u.id = targetUserId)) with
      | none => (st1, none)
      | some tu => (st1, some ⟨res.1.id, hist, targetUserId, tu.username⟩)

/-! ## Message Pipeline (src/server.js lines 201-274, send_private_message) -/

/-- The payload of `send_private_message` relevant to message construction:
`content` may be absent, `fileData` is the base64 attachment payload (absent
for a pure text message), `fileName` the client-supplied attachment name. -/
structure SendPayload where
  content : Option String
  fileData : Option String
  fileName : String
deriving Repr, DecidableEq

/-- The message document constructed and persisted by `send_private_message`:
`content: content || ''`, `type: 'text'`, `readBy: [socket.userId]`; when
`fileData` is present, `type` becomes `'file'`, `fileUrl` records the stored
blob reference (`uniqueName` stands for the timestamped file name) and
`content` becomes `content || fileName`.  `newId` stands for the
server-assigned `_id`. -/
def buildMessage (newId : MsgId) (roomId : ConvId) (senderId : UserId)
    (p : SendPayload) (uniqueName : String) : Message :=
  let base : Message :=
    ⟨newId, roomId, senderId, jsOr p.content "", "text", none, [senderId]⟩
  match p.fileData with
  | none => base
  | some _ =>
    { base with
        type := "file"
        fileUrl := some ("/uploads/" ++ uniqueName)
        content := jsOr p.content p.fileName }

/-! ## Read-Receipt Tracker (src/server.js lines 277-296, mark_messages_read) -/

/-- The effect of `Message.updateMany` on a single message document: the
filter is `conversationId: roomId`, `sender: { $ne: myId }`,
`readBy: { $ne: myId }` (on an array field, `$ne` means the array does not
contain the value), and the update `{ $addToSet: { readBy: myId } }` appends
the id (it is absent by the filter). -/
def markReadOne (roomId : ConvId) (myId : UserId) (m : Message) : Message :=
  if m.conversationId = roomId ∧ m.sender ≠ myId ∧ myId ∉ m.readBy
  then { m with readBy := m.readBy ++ [myId] }
  else m

/-- `mark_messages_read({ roomId })` restricted to its store effect: the
`updateMany` applied across the message collection. -/
def mark_messages_read (msgs : List Message) (roomId : ConvId) (myId : UserId) :
    List Message :=
  msgs.map (markReadOne roomId myId)

/-! ## Authentication Gateway (src/unnamed/part_000 lines 108-131, signup).
The src/unnamed/part_000 variant of the server is the one carrying the
reauthentication token (`jwt.sign`); src/server.js's `signup` is identical
except that it emits `registration_success` without a token. -/

/-- The events a signup handler can emit. -/
inductive AuthEmit
  | auth_error (message : String)
  | registration_success (myId : UserId) (token : Option String)
deriving Repr, DecidableEq

/-- The outcome of `signup`: the emitted event, the user collection after
the handler, and the socket's in-memory binding (`socket.userId`) after. -/
structure SignupResult where
  emit : AuthEmit
  users : List User
  boundUserId : Option UserId
deriving Repr, DecidableEq

/-- `signup({ username, password })` (src/unnamed/part_000 lines 108-131).
`User.findOne({ username })` checks for an existing user; on conflict the
handler emits `auth_error 'Username already taken'` and returns without
creating anything.  Otherwise it creates the user with the bcrypt digest,
`isOnline: true` and `socketId: socket.id`, signs a JWT for the new id,
binds `socket.userId` and emits `registration_success { myId, token }`.
`hash` and `issue` stand for the opaque bcrypt and jwt primitives; `newId`
for the server-assigned `_id`. -/
def signup (users : List User) (sockId : SockId) (username password : String)
    (newId : UserId) (hash : String → String) (issue : UserId → String) :
    SignupResult :=
  match users.find? (fun u => decide (u.username = username)) with
  | some _ => ⟨.auth_error "Username already taken", users, none⟩
  | none =>
    let nu : User := ⟨newId, username, hash password, true, some sockId⟩
    ⟨.registration_success newId (some (issue newId)), users ++ [nu], some newId⟩

/-! ## Typing Relay (src/server.js lines 299-321, typing_start / typing_stop) -/

/-- The `typing_status` payload broadcast by the typing handlers.  `userId`
and `username` are the socket's in-memory attributes and are `undefined`
(here `none`) on an unauthenticated socket. -/
structure TypingStatus where
  userId : Option UserId
  username : Option String
  roomId : ConvId
  isTyping : Bool
deriving Repr, DecidableEq

/-- The `typing_start` / `typing_stop` handler:
`const sender = { id: socket.userId, username: socket.username }` builds an
object literal, which is always truthy in JavaScript, so the guard
`if (sender && roomId)` only tests `roomId` truthiness.  When the guard
passes, `socket.to(roomId)` broadcasts `typing_status` to the room
excluding the caller; otherwise nothing is emitted.  The handler touches no
persistent state. -/
def typingHandler (sockUserId : Option UserId) (sockUsername : Option String)
    (roomId : Option ConvId) (isTyping : Bool) : Option TypingStatus :=
  if jsTruthy roomId then
    match roomId with
    | some r => some ⟨sockUserId, sockUsername, r, isTyping⟩
    | none => none
  else none

/-- `socket.to(roomId).emit`: the receiving sockets are the members of the
room except the caller. -/
def typingRecipients (room : List SockId) (caller : SockId) : List SockId :=
  room.filter (fun s => decide (s ≠ caller))

/-! ## Concrete records used by the closed witness theorems -/

/-- An empty store (fresh database). -/
def emptyStore : Store := ⟨[], [], []⟩

/-- A concrete user. -/
def uAlice : User := ⟨"A", "alice", "hA", true, some "sA"⟩

/-- A concrete second user. -/
def uBob : User := ⟨"B", "bob", "hB", true, some "sB"⟩

/-- A concrete message from user A already read by both participants. -/
def mAB : Message := ⟨"m1", "c1", "A", "hi", "text", none, ["A", "B"]⟩

/-- A concrete message from user A read only by its sender. -/
def mA : Message := ⟨"m2", "c1", "A", "hello", "text", none, ["A"]⟩

/-- A concrete message from user B read only by its sender. -/
def mB : Message := ⟨"m3", "c1", "B", "yo", "text", none, ["B"]⟩

/-- A concrete conversation between A and B. -/
def cAB : Conversation := ⟨"c1", ["A", "B"], "hello"⟩

/-- A concrete store: users A and B, their conversation, one message from
each side, each read only by its sender. -/
def stAB : Store := ⟨[uAlice, uBob], [cAB], [mA, mB]⟩

/-- A concrete attachment payload without text. -/
def pFileOnly : SendPayload := ⟨none, some "base64data", "photo.png"⟩

/-- A concrete payload with both text and an attachment. -/
def pTextFile : SendPayload := ⟨some "hi", some "base64data", "photo.png"⟩

/-- Opaque credential digest stand-in used by the witness. -/
def hashFn (s : String) : String := s ++ "#digest"

/-- Opaque token issuer stand-in used by the witness. -/
def issueFn (uid : UserId) : String := uid ++ "#token"

/-- Two concurrent first-time `join_private_chat` calls for the same pair,
one from each side, in the interleaving where both `await
Conversation.findOne(...)` suspensions complete before either `await
Conversation.create(...)` runs.  Each call executes exactly the
find-or-create step of the handler (src/server.js lines 158-167); there is
no uniqueness constraint on `participants` in conversationSchema
(src/models.js lines 58-70), so both creates succeed. -/
def resolveInterleaved (st : Store) (a b : UserId) (id1 id2 : ConvId) : Store :=
  let r1 := findConversation st.conversations a b
  let r2 := findConversation st.conversations b a
  let st1 :=
    match r1 with
    | some _ => st
    | none =>
      { st with conversations :=
          st.conversations ++ [⟨id1, [a, b], "Start a conversation"⟩] }
  match r2 with
  | some _ => st1
  | none =>
    { st1 with conversations :=
        st1.conversations ++ [⟨id2, [b, a], "Start a conversation"⟩] }

/-! ## Theorems -/

theorem markReadOne_idem (roomId : ConvId) (myId : UserId) (m : Message) :
    markReadOne roomId myId (markReadOne roomId myId m) = markReadOne roomId myId m := by
  unfold markReadOne
  by_cases h : m.conversationId = roomId ∧ m.sender ≠ myId ∧ myId ∉ m.readBy
  · rw [if_pos h, if_neg]
    intro hc
    exact hc.2.2 (List.mem_append.mpr (Or.inr (List.mem_singleton.mpr rfl)))
  · rw [if_neg h, if_neg h]

/-- Claim C3: `mark_messages_read` is idempotent — applying the update a
second time for the same user and conversation leaves every message's
read-set as after the first application, and the per-message update is a
no-op on a message already containing the caller in its read-set. -/
theorem mark_messages_read_idempotent (msgs : List Message) (roomId : ConvId) (myId : UserId) :
    mark_messages_read (mark_messages_read msgs roomId myId) roomId myId
      = mark_messages_read msgs roomId myId ∧
    ∀ m : Message, myId ∈ m.readBy → markReadOne roomId myId m = m := by
  constructor
  · unfold mark_messages_read
    rw [List.map_map]
    apply List.map_congr_left
    intro m _
    exact markReadOne_idem roomId myId m
  · intro m hm
    unfold markReadOne
    rw [if_neg]
    intro hc
    exact hc.2.2 hm

/-- Witness for C3 at a concrete message list. -/
theorem mark_messages_read_idempotent_witness :
    (mark_messages_read (mark_messages_read [mA, mAB] "c1" "B") "c1" "B"
        = mark_messages_read [mA, mAB] "c1" "B") ∧
    ("B" ∈ mAB.readBy ∧ markReadOne "c1" "B" mAB = mAB) :=
  ⟨(mark_messages_read_idempotent [mA, mAB] "c1" "B").1,
   by decide,
   (mark_messages_read_idempotent [mA, mAB] "c1" "B").2 mAB (by decide)⟩

/-- Claim C4: a freshly constructed message's read-set contains its sender
(`readBy: [socket.userId]` with `sender: socket.userId`), and the
`mark_messages_read` per-message update preserves sender membership in the
read-set (it only appends readers, and its filter skips the caller's own
messages, so nothing is ever removed). -/
theorem message_readBy_contains_sender :
    (∀ (newId : MsgId) (roomId : ConvId) (senderId : UserId) (p : SendPayload)
        (uniqueName : String),
      (buildMessage newId roomId senderId p uniqueName).sender = senderId ∧
      senderId ∈ (buildMessage newId roomId senderId p uniqueName).readBy) ∧
    (∀ (roomId : ConvId) (myId : UserId) (m : Message), m.sender ∈ m.readBy →
      (markReadOne roomId myId m).sender ∈ (markReadOne roomId myId m).readBy) := by
  constructor
  · intro newId roomId senderId p uniqueName
    unfold buildMessage
    cases p.fileData <;> simp
  · intro roomId myId m hm
    unfold markReadOne
    split
    · simpa using Or.inl hm
    · exact hm

/-- Witness for C4 at a concrete message. -/
theorem message_readBy_contains_sender_witness :
    (mA.sender ∈ mA.readBy) ∧
    (markReadOne "c1" "B" mA).sender ∈ (markReadOne "c1" "B" mA).readBy :=
  ⟨by decide, message_readBy_contains_sender.2 "c1" "B" mA (by decide)⟩

/-- Claim C6: with an attachment and no text (`content` absent or empty,
both falsy in JavaScript) the persisted content is the attachment's file
name; with nonempty text the content is that text whether or not an
attachment is present; and an attachment message gets `type: 'file'` with
the stored blob reference in `fileUrl`. -/
theorem send_attachment_content (newId : MsgId) (roomId : ConvId) (senderId : UserId)
    (p : SendPayload) (uniqueName : String) :
    ((p.content = none ∨ p.content = some "") → ∀ d : String, p.fileData = some d →
      (buildMessage newId roomId senderId p uniqueName).content = p.fileName) ∧
    (∀ t : String, p.content = some t → t ≠ "" →
      (buildMessage newId roomId senderId p uniqueName).content = t) ∧
    (∀ d : String, p.fileData = some d →
      (buildMessage newId roomId senderId p uniqueName).type = "file" ∧
      (buildMessage newId roomId senderId p uniqueName).fileUrl
        = some ("/uploads/" ++ uniqueName)) := by
  refine ⟨?_, ?_, ?_⟩
  · intro hc d hd
    unfold buildMessage
    rw [hd]
    rcases hc with h | h <;> simp [jsOr, h]
  · intro t ht hne
    unfold buildMessage
    cases hd : p.fileData <;> simp [jsOr, ht, hne]
  · intro d hd
    unfold buildMessage
    rw [hd]
    exact ⟨rfl, rfl⟩

/-- Witness for C6 at concrete payloads. -/
theorem send_attachment_content_witness :
    (buildMessage "m9" "c1" "A" pFileOnly "f1.png").content = "photo.png" ∧
    (buildMessage "m9" "c1" "A" pTextFile "f1.png").content = "hi" ∧
    (buildMessage "m9" "c1" "A" pFileOnly "f1.png").type = "file" :=
  ⟨(send_attachment_content "m9" "c1" "A" pFileOnly "f1.png").1 (Or.inl rfl) "base64data" rfl,
   (send_attachment_content "m9" "c1" "A" pTextFile "f1.png").2.1 "hi" rfl (by decide),
   ((send_attachment_content "m9" "c1" "A" pFileOnly "f1.png").2.2 "base64data" rfl).1⟩

/-- Claim C9 counterexample: on a fresh store the resolver finds no
conversation for the pair and creates one — but its preview (`lastMessage`)
is the literal placeholder `'Start a conversation'`, not the empty string
the claim asserts. -/
theorem resolve_created_preview_not_empty :
    findConversation emptyStore.conversations "A" "B" = none ∧
    (resolve emptyStore "A" "B" "c1").2.conversations
      = [⟨"c1", ["A", "B"], "Start a conversation"⟩] ∧
    (resolve emptyStore "A" "B" "c1").1.lastMessage ≠ "" := by decide

/-- Claim C9 (amended): when the resolver finds no conversation for the
pair, the conversation it creates and persists has the placeholder preview
string `'Start a conversation'` (a nonempty constant), not an empty one. -/
theorem resolve_creates_with_placeholder_preview (st : Store) (a b : UserId) (newId : ConvId)
    (h : findConversation st.conversations a b = none) :
    (resolve st a b newId).1.lastMessage = "Start a conversation" ∧
    (resolve st a b newId).2.conversations
      = st.conversations ++ [⟨newId, [a, b], "Start a conversation"⟩] := by
  unfold resolve
  rw [h]
  exact ⟨rfl, rfl⟩

/-- Witness for the amended C9 on a fresh store. -/
theorem resolve_creates_with_placeholder_preview_witness :
    findConversation emptyStore.conversations "A" "B" = none ∧
    (resolve emptyStore "A" "B" "c1").1.lastMessage = "Start a conversation" ∧
    (resolve emptyStore "A" "B" "c1").2.conversations
      = emptyStore.conversations ++ [⟨"c1", ["A", "B"], "Start a conversation"⟩] :=
  ⟨rfl,
   (resolve_creates_with_placeholder_preview emptyStore "A" "B" "c1" rfl).1,
   (resolve_creates_with_placeholder_preview emptyStore "A" "B" "c1" rfl).2⟩

/-- Claim C8 counterexample: `targetUserId` comes from the client payload,
so an authenticated user can target itself; on a store holding only that
user and no conversations, `join_private_chat` creates and persists a
conversation whose participant array is `["A", "A"]` — two entries but not
two distinct members. -/
theorem join_self_chat_duplicate_participants :
    (join_private_chat ⟨[uAlice], [], []⟩ (some "A") "A" "c1").1.conversations
      = [⟨"c1", ["A", "A"], "Start a conversation"⟩] ∧
    ¬ (⟨"c1", ["A", "A"], "Start a conversation"⟩ : Conversation).participants.Nodup := by
  decide

/-- Claim C8 (amended): a conversation created by the resolver always has
exactly the two participant entries `[myId, targetUserId]` (caller first),
and those are two distinct members whenever the target differs from the
caller — but nothing prevents a client from passing its own id, in which
case the two entries coincide. -/
theorem resolve_participants_pair (st : Store) (a b : UserId) (newId : ConvId)
    (h : findConversation st.conversations a b = none) :
    (resolve st a b newId).1.participants = [a, b] ∧
    (resolve st a b newId).1.participants.length = 2 ∧
    (a ≠ b → (resolve st a b newId).1.participants.Nodup) := by
  unfold resolve
  rw [h]
  refine ⟨rfl, rfl, ?_⟩
  intro hab
  simp [hab]

/-- Witness for the amended C8 on a fresh store. -/
theorem resolve_participants_pair_witness :
    findConversation emptyStore.conversations "A" "B" = none ∧
    (resolve emptyStore "A" "B" "c1").1.participants = ["A", "B"] ∧
    (resolve emptyStore "A" "B" "c1").1.participants.Nodup :=
  ⟨rfl,
   (resolve_participants_pair emptyStore "A" "B" "c1" rfl).1,
   (resolve_participants_pair emptyStore "A" "B" "c1" rfl).2.2 (by decide)⟩

/-- Claim C5: signing up with a username that already exists emits
`auth_error 'Username already taken'` and creates no user; with a fresh
username it creates the user with the credential digest, `isOnline: true`
and the caller's socket bound, signs a token for the new id, binds the
socket and emits `registration_success` carrying both the new id and the
token (src/unnamed/part_000; the src/server.js variant omits the token). -/
theorem signup_conflict_and_success (users : List User) (sockId : SockId)
    (username password : String) (newId : UserId)
    (hash : String → String) (issue : UserId → String) :
    ((∃ u ∈ users, u.username = username) →
      (signup users sockId username password newId hash issue).emit
          = .auth_error "Username already taken" ∧
      (signup users sockId username password newId hash issue).users = users) ∧
    ((∀ u ∈ users, u.username ≠ username) →
      signup users sockId username password newId hash issue
        = ⟨.registration_success newId (some (issue newId)),
           users ++ [⟨newId, username, hash password, true, some sockId⟩],
           some newId⟩) := by
  constructor
  · rintro ⟨u, hu, hname⟩
    cases hfind : users.find? (fun v => decide (v.username = username)) with
    | none =>
      exfalso
      have hne := List.find?_eq_none.mp hfind u hu
      simp [hname] at hne
    | some v =>
      unfold signup
      rw [hfind]
      exact ⟨rfl, rfl⟩
  · intro h
    have hfind : users.find? (fun v => decide (v.username = username)) = none := by
      rw [List.find?_eq_none]
      intro u hu
      simpa using h u hu
    unfold signup
    rw [hfind]

/-- Witness for C5: conflict on the taken name "alice", success on "carol". -/
theorem signup_conflict_and_success_witness :
    ((signup [uAlice] "s1" "alice" "pw" "u2" hashFn issueFn).emit
        = .auth_error "Username already taken" ∧
     (signup [uAlice] "s1" "alice" "pw" "u2" hashFn issueFn).users = [uAlice]) ∧
    signup [uAlice] "s1" "carol" "pw" "u2" hashFn issueFn
      = ⟨.registration_success "u2" (some (issueFn "u2")),
         [uAlice] ++ [⟨"u2", "carol", hashFn "pw", true, some "s1"⟩],
         some "u2"⟩ :=
  ⟨(signup_conflict_and_success [uAlice] "s1" "alice" "pw" "u2" hashFn issueFn).1
      ⟨uAlice, by decide, rfl⟩,
   (signup_conflict_and_success [uAlice] "s1" "carol" "pw" "u2" hashFn issueFn).2
      (by decide)⟩

/-- Claim C7, code_bug evidence: `const sender = { id: socket.userId,
username: socket.username }` is an object literal and therefore always
truthy, so the guard `if (sender && roomId)` does not block unauthenticated
sockets — with a room id present the handler still broadcasts, with
`userId: undefined`.  A call without a (truthy) room id is ignored, and the
broadcast goes to the room members except the caller. -/
theorem typing_unauthenticated_still_broadcasts :
    typingHandler none none (some "room1") true
      = some ⟨none, none, "room1", true⟩ ∧
    typingHandler none none none true = none ∧
    typingHandler none none (some "") true = none ∧
    typingRecipients ["s1", "s2", "s3"] "s1" = ["s2", "s3"] := by decide

/-- Claim C2 counterexample: starting from a fresh store, the interleaving
in which both concurrent first-time resolve calls complete their `findOne`
before either `create` runs ends with two persisted conversations that both
hold the unordered pair A, B — the find-or-create step is not atomic and no
store-level uniqueness constraint prevents the duplicate. -/
theorem concurrent_resolve_creates_duplicates :
    (resolveInterleaved emptyStore "A" "B" "c1" "c2").conversations
      = [⟨"c1", ["A", "B"], "Start a conversation"⟩,
         ⟨"c2", ["B", "A"], "Start a conversation"⟩] ∧
    ((resolveInterleaved emptyStore "A" "B" "c1" "c2").conversations.filter
        (fun c => decide ("A" ∈ c.participants ∧ "B" ∈ c.participants))).length = 2 := by
  decide

theorem findConversation_append_none (convs : List Conversation) (a b : UserId)
    (h : findConversation convs a b = none) (tail : List Conversation) :
    findConversation (convs ++ tail) a b = findConversation tail a b := by
  unfold findConversation at h ⊢
  rw [List.find?_append, h]
  rfl

/-- Claim C2 (amended): the lookup (`$all` over the participant array) is
symmetric in the two users, so `resolve(A, B)` and `resolve(B, A)` return
the same conversation identity, and a second, non-interleaved resolve for
the reversed pair finds the conversation the first call resolved or created
and creates nothing; however, two interleaved concurrent first-time calls
can both pass the `findOne` check and create two conversations for the same
unordered pair (see the counterexample). -/
theorem resolve_symmetric_and_sequential (st : Store) (a b : UserId) (id1 id2 : ConvId) :
    (∀ convs : List Conversation,
      findConversation convs a b = findConversation convs b a) ∧
    (resolve (resolve st a b id1).2 b a id2).1 = (resolve st a b id1).1 ∧
    (resolve (resolve st a b id1).2 b a id2).2 = (resolve st a b id1).2 := by
  have hsym : ∀ convs : List Conversation,
      findConversation convs a b = findConversation convs b a := by
    intro convs
    unfold findConversation
    congr 1
    funext c
    exact decide_eq_decide.mpr and_comm
  refine ⟨hsym, ?_⟩
  cases hfind : findConversation st.conversations a b with
  | some c =>
    have e1 : resolve st a b id1 = (c, st) := by
      unfold resolve
      rw [hfind]
    have hfind2 : findConversation st.conversations b a = some c := by
      rw [← hsym]
      exact hfind
    have e2 : resolve st b a id2 = (c, st) := by
      unfold resolve
      rw [hfind2]
    rw [e1, e2]
    exact ⟨rfl, rfl⟩
  | none =>
    have e1 : resolve st a b id1
        = (⟨id1, [a, b], "Start a conversation"⟩,
           { st with conversations :=
               st.conversations ++ [⟨id1, [a, b], "Start a conversation"⟩] }) := by
      unfold resolve
      rw [hfind]
    have hfindba : findConversation st.conversations b a = none := by
      rw [← hsym]
      exact hfind
    have hfind2 : findConversation
        (st.conversations ++ [⟨id1, [a, b], "Start a conversation"⟩]) b a
        = some ⟨id1, [a, b], "Start a conversation"⟩ := by
      rw [findConversation_append_none st.conversations b a hfindba]
      unfold findConversation
      apply List.find?_cons_of_pos
      simp
    have e2 : resolve { st with conversations :=
          st.conversations ++ [⟨id1, [a, b], "Start a conversation"⟩] } b a id2
        = (⟨id1, [a, b], "Start a conversation"⟩,
           { st with conversations :=
               st.conversations ++ [⟨id1, [a, b], "Start a conversation"⟩] }) := by
      unfold resolve
      rw [hfind2]
    rw [e1, e2]
    exact ⟨rfl, rfl⟩

theorem resolve_users_unchanged (st : Store) (a b : UserId) (newId : ConvId) :
    (resolve st a b newId).2.users = st.users := by
  unfold resolve
  cases findConversation st.conversations a b <;> rfl

theorem join_emits_none_of_target_missing (st : Store) (myId targetUserId : UserId)
    (newId : ConvId)
    (huser : st.users.find? (fun u => decide (u.id = targetUserId)) = none) :
    join_private_chat st (some myId) targetUserId newId
      = ((resolve st myId targetUserId newId).2, none) := by
  unfold join_private_chat
  simp only [resolve_users_unchanged, huser]
  cases buildHistory st.users (resolve st myId targetUserId newId).2.messages
      (resolve st myId targetUserId newId).1.id <;> rfl

/-- Claim C10: `join_private_chat` is not atomic on failure — when the
target user id resolves to no user, `targetUser._id.toString()` throws after
the find-or-create step already persisted the new conversation; the catch
block swallows the error, so the caller gets neither `chat_room_loaded` nor
any error event while the created conversation remains in the store. -/
theorem join_private_chat_not_atomic (st : Store) (myId targetUserId : UserId)
    (newId : ConvId)
    (hconv : findConversation st.conversations myId targetUserId = none)
    (huser : st.users.find? (fun u => decide (u.id = targetUserId)) = none) :
    (join_private_chat st (some myId) targetUserId newId).2 = none ∧
    (⟨newId, [myId, targetUserId], "Start a conversation"⟩ : Conversation)
      ∈ (join_private_chat st (some myId) targetUserId newId).1.conversations := by
  rw [join_emits_none_of_target_missing st myId targetUserId newId huser]
  refine ⟨rfl, ?_⟩
  unfold resolve
  rw [hconv]
  simp

/-- Witness for C10: user A targets the nonexistent id "ghost" on a store
holding only A — no event, but the conversation is persisted. -/
theorem join_private_chat_not_atomic_witness :
    (join_private_chat ⟨[uAlice], [], []⟩ (some "A") "ghost" "c9").2 = none ∧
    (⟨"c9", ["A", "ghost"], "Start a conversation"⟩ : Conversation)
      ∈ (join_private_chat ⟨[uAlice], [], []⟩ (some "A") "ghost" "c9").1.conversations :=
  join_private_chat_not_atomic ⟨[uAlice], [], []⟩ "A" "ghost" "c9" rfl (by decide)

theorem find?_ne_two (u t : UserId) (ps : List UserId)
    (hu : u ∈ ps) (hx : ∃ x y, x ≠ y ∧ ps = [x, y]) :
    (ps.find? (fun p => decide (p ≠ u)) = some t) ↔ (t ∈ ps ∧ t ≠ u) := by
  obtain ⟨x, y, hxy, rfl⟩ := hx
  rcases List.mem_cons.mp hu with rfl | hy
  · have e : [u, y].find? (fun p => decide (p ≠ u)) = some y := by
      have h1 : (decide (u ≠ u)) = false := by simp
      have h2 : (decide (y ≠ u)) = true := by simp [Ne.symm hxy]
      simp [List.find?, h1, h2]
    rw [e]
    constructor
    · intro h
      obtain rfl := Option.some.inj h
      exact ⟨by simp, Ne.symm hxy⟩
    · rintro ⟨ht, htu⟩
      rcases List.mem_cons.mp ht with rfl | ht2
      · exact absurd rfl htu
      · rw [List.mem_singleton.mp ht2]
  · obtain rfl := List.mem_singleton.mp hy
    have e : [x, u].find? (fun p => decide (p ≠ u)) = some x := by
      have h1 : (decide (x ≠ u)) = true := by simp [hxy]
      simp [List.find?, h1]
    rw [e]
    constructor
    · intro h
      obtain rfl := Option.some.inj h
      exact ⟨by simp, hxy⟩
    · rintro ⟨ht, htu⟩
      rcases List.mem_cons.mp ht with rfl | ht2
      · rfl
      · exact absurd (List.mem_singleton.mp ht2) htu

theorem buildUnread_spec (msgs : List Message) (u : UserId) :
    ∀ cs : List Conversation,
      (∀ c ∈ cs, 0 < countUnread msgs c.id u →
        (c.participants.find? (fun p => decide (p ≠ u))).isSome) →
      ∃ l, buildUnread msgs u cs = some l ∧
        ∀ e : UnreadUpdate, e ∈ l ↔ ∃ c, c ∈ cs ∧
          0 < countUnread msgs c.id u ∧
          e.conversationId = c.id ∧ e.count = countUnread msgs c.id u ∧
          c.participants.find? (fun p => decide (p ≠ u)) = some e.targetUserId := by
  intro cs
  induction cs with
  | nil =>
    intro _
    exact ⟨[], rfl, by simp⟩
  | cons c cs ih =>
    intro H
    obtain ⟨l, hl, hiff⟩ := ih (fun c' h => H c' (List.mem_cons_of_mem c h))
    by_cases hn : 0 < countUnread msgs c.id u
    · obtain ⟨t, ht⟩ := Option.isSome_iff_exists.mp (H c (List.mem_cons_self c cs) hn)
      refine ⟨⟨c.id, countUnread msgs c.id u, t⟩ :: l, ?_, ?_⟩
      · unfold buildUnread
        rw [if_pos hn, ht, hl]
      · intro e
        constructor
        · intro he
          rcases List.mem_cons.mp he with rfl | hel
          · exact ⟨c, List.mem_cons_self c cs, hn, rfl, rfl, ht⟩
          · obtain ⟨c', hc', rest⟩ := (hiff e).mp hel
            exact ⟨c', List.mem_cons_of_mem c hc', rest⟩
        · rintro ⟨c', hc', hn', hcid, hcount, hfind⟩
          rcases List.mem_cons.mp hc' with rfl | hc2
          · have ht2 : t = e.targetUserId := by
              rw [ht] at hfind
              exact Option.some.inj hfind
            obtain ⟨e1, e2, e3⟩ := e
            simp only at hcid hcount ht2
            rw [hcid, hcount, ← ht2]
            exact List.mem_cons_self _ _
          · exact List.mem_cons_of_mem _
              ((hiff e).mpr ⟨c', hc2, hn', hcid, hcount, hfind⟩)
    · refine ⟨l, ?_, ?_⟩
      · unfold buildUnread
        rw [if_neg hn]
        exact hl
      · intro e
        rw [hiff e]
        constructor
        · rintro ⟨c', hc', rest⟩
          exact ⟨c', List.mem_cons_of_mem c hc', rest⟩
        · rintro ⟨c', hc', hn', rest⟩
          rcases List.mem_cons.mp hc' with rfl | hc2
          · exact absurd hn' hn
          · exact ⟨c', hc2, hn', rest⟩

/-- Claim C1: under the two-distinct-participants invariant for the user's
conversations, `sendUnreadCounts` computes (without aborting) a summary in
which an entry appears exactly for each conversation of the user whose
unread count — the number of messages of that conversation with a different
sender and a read-set not containing the user — is nonzero, carrying that
count and the other participant's id. -/
theorem sendUnreadCounts_spec (st : Store) (u : UserId)
    (H : ∀ c ∈ st.conversations, u ∈ c.participants →
      ∃ x y, x ≠ y ∧ c.participants = [x, y]) :
    ∃ l, sendUnreadCounts st u = some l ∧ unreadSummarySpec st u l := by
  have Hmem : ∀ c ∈ st.conversations.filter (fun c => decide (u ∈ c.participants)),
      c ∈ st.conversations ∧ u ∈ c.participants := by
    intro c hc
    have h := List.mem_filter.mp hc
    exact ⟨h.1, of_decide_eq_true h.2⟩
  have Hfind : ∀ c ∈ st.conversations.filter (fun c => decide (u ∈ c.participants)),
      0 < countUnread st.messages c.id u →
      (c.participants.find? (fun p => decide (p ≠ u))).isSome := by
    intro c hc _
    obtain ⟨hcst, hu⟩ := Hmem c hc
    obtain ⟨x, y, hxy, hps⟩ := H c hcst hu
    obtain ⟨t, htmem, htne⟩ : ∃ t, t ∈ c.participants ∧ t ≠ u := by
      rw [hps] at hu ⊢
      rcases List.mem_cons.mp hu with rfl | hy
      · exact ⟨y, by simp, Ne.symm hxy⟩
      · obtain rfl := List.mem_singleton.mp hy
        exact ⟨x, by simp, hxy⟩
    rw [Option.isSome_iff_exists]
    exact ⟨t, (find?_ne_two u t c.participants hu ⟨x, y, hxy, hps⟩).mpr ⟨htmem, htne⟩⟩
  obtain ⟨l, hl, hiff⟩ := buildUnread_spec st.messages u
    (st.conversations.filter (fun c => decide (u ∈ c.participants))) Hfind
  refine ⟨l, hl, ?_⟩
  intro e
  rw [hiff e]
  constructor
  · rintro ⟨c, hc, hn, hcid, hcount, hfind⟩
    obtain ⟨hcst, hu⟩ := Hmem c hc
    have hmem := (find?_ne_two u e.targetUserId c.participants hu (H c hcst hu)).mp hfind
    exact ⟨c, hcst, hu, hn, hcid, hcount, hmem.1, hmem.2⟩
  · rintro ⟨c, hcst, hu, hn, hcid, hcount, htmem, htne⟩
    have hc : c ∈ st.conversations.filter (fun c => decide (u ∈ c.participants)) :=
      List.mem_filter.mpr ⟨hcst, decide_eq_true hu⟩
    exact ⟨c, hc, hn, hcid, hcount,
      (find?_ne_two u e.targetUserId c.participants hu (H c hcst hu)).mpr ⟨htmem, htne⟩⟩

/-- Witness for C1: on the concrete store with users A and B, one
conversation and one still-unread message from A, the summary for B exists
and satisfies the specification. -/
theorem sendUnreadCounts_spec_witness :
    ∃ l, sendUnreadCounts stAB "B" = some l ∧ unreadSummarySpec stAB "B" l :=
  sendUnreadCounts_spec stAB "B" (by
    intro c hc _
    rw [List.mem_singleton.mp hc]
    exact ⟨"A", "B", by decide, rfl⟩)

end ChatApp
